import Mathlib

/-!
Verification of the PonEstateSchool Telegram lesson bot (`src/index.js`).

The bot serves a fixed sequence of ten lessons, gated behind one-time
activation codes.  Four handlers touch the persistent store (Postgres
tables `users` and `access_codes`):

* `bot.command('activate')` — redeem an access code (`/activate <code>`);
* `bot.start`               — reset progression and serve lesson 1 (`/start`);
* `bot.hears('Продолжить ▶️')` — advance to the next lesson;
* `bot.command('status')`   — report progress (`/status`).

The store is embedded as explicit lists of rows; each handler is a pure
function `Store → … → Reply × Store`.  Ambient inputs of the JS runtime
are passed explicitly: `todayD` is the string `today()` returns
(`new Date().toISOString().split('T')[0]`) and `now` is an abstract
timestamp for `NOW()`.  JS number arithmetic on the small integers
involved is modelled exactly (no floating-point artifacts arise in the
reachable range).
-/

namespace PonEstateSchool

/-- One record of the static `lessons` array of `src/index.js`.  The claims
only ever identify a lesson (which record is served); the body text,
materials and homework fields are static content whose rendering is out of
scope, so the embedding keeps the identifying `title` field. -/
structure Lesson where
  title : String
deriving Repr, DecidableEq

/-- The static `lessons` array (titles of the ten records, in order). -/
def lessons : List Lesson :=
  [⟨"ДЕНЬ 1 - Введение в профессию"⟩,
   ⟨"ДЕНЬ 2 - Рынок недвижимости Батуми"⟩,
   ⟨"ДЕНЬ 3 - Клиенты и лиды"⟩,
   ⟨"ДЕНЬ 4 - Сообщения клиенту и коммуникация"⟩,
   ⟨"ДЕНЬ 5 - Звонки"⟩,
   ⟨"ДЕНЬ 6 - Воронка продаж и работа с возражениями"⟩,
   ⟨"ДЕНЬ 7 - Отработка возражений и этапы сделки"⟩,
   ⟨"ДЕНЬ 8 - Психотипы клиентов и показы"⟩,
   ⟨"ДЕНЬ 9 - Чек-листы агента"⟩,
   ⟨"ДЕНЬ 10 - Итог теории"⟩]

/-- A row of the `users` table (the columns the handlers read or write;
`id`, `created_at`, `updated_at` are never consulted by the handler
logic).  `last_lesson_date` is the `DATE` column as its ISO string. -/
structure UserRec where
  telegram_id : Nat
  current_lesson : Nat
  last_lesson_date : Option String
  has_access : Bool
deriving Repr, DecidableEq

/-- A row of the `access_codes` table (again only the columns the
handlers touch). -/
structure AccessCode where
  code : String
  is_used : Bool
  used_by_telegram_id : Option Nat
  used_at : Option Nat
deriving Repr, DecidableEq

/-- The persistent store: the `users` and `access_codes` tables.  Both
tables carry a UNIQUE key (`telegram_id`, `code`); row lookup is
`find?` on that key. -/
structure Store where
  users : List UserRec
  codes : List AccessCode
deriving Repr, DecidableEq

/-- Row lookup `SELECT * FROM users WHERE telegram_id = $1` (first row
or none). -/
def findUser (s : Store) (tid : Nat) : Option UserRec :=
  s.users.find? (fun u => u.telegram_id == tid)

/-- Code lookup `SELECT * FROM access_codes WHERE code = $1` (first row
or none). -/
def findCode (s : Store) (c : String) : Option AccessCode :=
  s.codes.find? (fun a => a.code == c)

/-- The `checkAccess` predicate of the spec, as the handlers implement
it inline:
a user row exists and its `has_access` flag is true; no row means no
access (fail closed). -/
def checkAccess (s : Store) (tid : Nat) : Bool :=
  match findUser s tid with
  | some u => u.has_access
  | none => false

/-- Observable outcomes of the `/activate` handler, one per distinct
reply of `bot.command('activate')`.  `storeError` is the generic
failure reply sent from the catch block after a `ROLLBACK`. -/
inductive ActivateReply where
  | codeMissing
  | codeNotFound
  | codeAlreadyUsed
  | activated
  | storeError
deriving Repr, DecidableEq

/-- JS `String.prototype.toUpperCase` restricted to the ASCII range the
access codes live in, written on the character list so that it reduces
in the kernel. -/
def jsToUpper (s : String) : String := ⟨s.data.map Char.toUpper⟩

/-- JS `String.prototype.trim`: drop whitespace from both ends. -/
def jsTrim (s : String) : String :=
  ⟨((s.data.dropWhile Char.isWhitespace).reverse.dropWhile
      Char.isWhitespace).reverse⟩

/-- The normalization `raw.toUpperCase().trim()` applied to the code
token in the activate handler. -/
def normalizeCode (raw : String) : String := jsTrim (jsToUpper raw)

/-- JS `String.prototype.split(' ')` on the character list: split at every
single space, keeping empty fields, as JS does. -/
def splitSpace : List Char → List (List Char)
  | [] => [[]]
  | c :: cs =>
    if c = ' ' then [] :: splitSpace cs
    else
      match splitSpace cs with
      | t :: ts => (c :: t) :: ts
      | [] => [[c]]

/-- The expression `ctx.message.text.split(' ')[1]?.toUpperCase().trim()`
of the activate handler: the token
after the command word, normalized; `none` when the message has no
second token. -/
def codeToken (text : String) : Option String :=
  ((splitSpace text.data).get? 1).map (fun cs => normalizeCode ⟨cs⟩)

/-- Result of the pre-transaction check of the activate handler: either
a denial reply is already decided, or the handler proceeds into the
transaction with the normalized code.  The JS guard `if (!code)` fires
both when the token is absent (`undefined`) and when it normalizes to
the empty string. -/
inductive CheckOutcome where
  | deny (r : ActivateReply)
  | proceed (code : String)
deriving Repr, DecidableEq

/-- The check phase of `bot.command('activate')`: everything up to and
including the `is_used` test.  Note that this runs on a plain `SELECT`
issued *before* `BEGIN`: it is a check-then-act read, with no lock on
the code row. -/
def checkPhase (s : Store) (text : String) : CheckOutcome :=
  match codeToken text with
  | none => .deny .codeMissing
  | some code =>
    if code = "" then .deny .codeMissing
    else
      match findCode s code with
      | none => .deny .codeNotFound
      | some accessCode =>
        if accessCode.is_used then .deny .codeAlreadyUsed
        else .proceed code

/-- The statement `UPDATE access_codes SET is_used = TRUE,
used_by_telegram_id = $1,
used_at = NOW() WHERE code = $2` — unconditional on `is_used`. -/
def markUsed (codes : List AccessCode) (c : String) (tid now : Nat) :
    List AccessCode :=
  codes.map fun a =>
    if a.code == c then
      { a with is_used := true, used_by_telegram_id := some tid,
               used_at := some now }
    else a

/-- The statement `INSERT INTO users (telegram_id, has_access,
current_lesson,
last_lesson_date, created_at) VALUES ($1, TRUE, 1, $2, NOW())
ON CONFLICT (telegram_id) DO UPDATE SET has_access = TRUE` — a fresh
row starts at lesson 1 with today's date; an existing row only gains
the access flag, its progression fields untouched. -/
def upsertUser (users : List UserRec) (tid : Nat) (todayD : String) :
    List UserRec :=
  if users.any (fun u => u.telegram_id == tid) then
    users.map fun u =>
      if u.telegram_id == tid then { u with has_access := true } else u
  else
    users ++ [⟨tid, 1, some todayD, true⟩]

/-- The transaction body of the activate handler (`BEGIN` … `COMMIT`):
mark the code used, then upsert the user, installed atomically. -/
def commitPhase (s : Store) (tid : Nat) (code : String) (now : Nat)
    (todayD : String) : Store :=
  ⟨upsertUser s.users tid todayD, markUsed s.codes code tid now⟩

/-- The activate handler with fault injection on the second statement of
the transaction: when `upsertFails` is true the user upsert raises, the
catch block issues `ROLLBACK` (discarding the `UPDATE access_codes`
already executed inside the transaction) and the generic error reply is
sent.  `upsertFails = false` is the normal run. -/
def activateRun (upsertFails : Bool) (s : Store) (tid : Nat)
    (text : String) (now : Nat) (todayD : String) :
    ActivateReply × Store :=
  match checkPhase s text with
  | .deny r => (r, s)
  | .proceed code =>
    if upsertFails then (.storeError, s)
    else (.activated, commitPhase s tid code now todayD)

/-- Handler `bot.command('activate')`: the full handler on a fault-free
store. -/
def activateCmd (s : Store) (tid : Nat) (text : String) (now : Nat)
    (todayD : String) : ActivateReply × Store :=
  activateRun false s tid text now todayD

/-- Observable outcomes of `bot.start`: the activation-instructions
reply (access denied), or lesson 1 served.  The payload is the record
the handler reads as `lessons[0]`. -/
inductive StartReply where
  | accessDenied
  | lessonSent (l : Option Lesson)
deriving Repr, DecidableEq

/-- The statement `UPDATE users SET current_lesson = $1,
last_lesson_date = $2 WHERE
telegram_id = $3` — the write both `bot.start` (with `$1 = 1`) and the
`Продолжить ▶️` handler issue. -/
def setLesson (s : Store) (tid n : Nat) (todayD : String) : Store :=
  ⟨s.users.map fun u =>
     if u.telegram_id == tid then
       { u with current_lesson := n, last_lesson_date := some todayD }
     else u,
   s.codes⟩

/-- Handler `bot.start`: check access, then
`UPDATE users SET current_lesson = 1, last_lesson_date = $2 WHERE
telegram_id = $1` and serve `lessons[0]`. -/
def startCmd (s : Store) (tid : Nat) (todayD : String) :
    StartReply × Store :=
  match findUser s tid with
  | none => (.accessDenied, s)
  | some user =>
    if !user.has_access then (.accessDenied, s)
    else (.lessonSent (lessons.get? 0), setLesson s tid 1 todayD)

/-- Observable outcomes of the `Продолжить ▶️` handler. -/
inductive ContinueReply where
  | noSuchUser
  | accessDenied
  | courseComplete
  | lessonSent (l : Option Lesson)
deriving Repr, DecidableEq

/-- The one-lesson-per-day test of the commented-out cadence block in
the `Продолжить ▶️` handler: it would block exactly when
`last_lesson_date` is set and equals today.  The deployed handler never
consults it. -/
def cadenceWouldBlock (user : UserRec) (todayD : String) : Bool :=
  match user.last_lesson_date with
  | some d => d == todayD
  | none => false

/-- Handler `bot.hears('Продолжить ▶️')`: load the user row, gate on
existence
and `has_access`, handle the completed course (`current_lesson` above or
at `lessons.length`), otherwise compute `nextLessonNumber` exactly as the
source does (including the extra `last_lesson_date` condition on the
`current_lesson === 1` branch), persist it with today's date, and serve
`lessons[nextLessonNumber - 1]`. -/
def continueBtn (s : Store) (tid : Nat) (todayD : String) :
    ContinueReply × Store :=
  match findUser s tid with
  | none => (.noSuchUser, s)
  | some user =>
    if !user.has_access then (.accessDenied, s)
    else if user.current_lesson > lessons.length then (.courseComplete, s)
    else if user.current_lesson = lessons.length then
      (.courseComplete, setLesson s tid (lessons.length + 1) todayD)
    else
      let nextLessonNumber :=
        if user.current_lesson = 1 ∧
            (user.last_lesson_date = none ∨
             user.last_lesson_date ≠ some todayD) then 2
        else if user.current_lesson < lessons.length then
          user.current_lesson + 1
        else user.current_lesson
      ( .lessonSent (lessons.get? (nextLessonNumber - 1)),
        setLesson s tid nextLessonNumber todayD )

/-- Observable outcomes of `/status`. -/
inductive StatusReply where
  | noSuchUser
  | progress (current total percent : Nat) (last : Option String)
deriving Repr, DecidableEq

/-- JS `Math.round(num / den)` on non-negative rationals: round half
up. -/
def mathRound (num den : Nat) : Nat := (2 * num + den) / (2 * den)

/-- The percentage the spec prescribes: `round(100 * current_lesson / N)`
with `N = 10` lessons (stated from the spec's words, to be compared with
the handler's `Math.round((current_lesson / lessons.length) * 100)`). -/
def specPercent (cl : Nat) : Nat := mathRound (100 * cl) 10

/-- Handler `bot.command('status')`: a single `SELECT`, then the
progress reply
with `Math.round((user.current_lesson / lessons.length) * 100)`; no
write. -/
def statusCmd (s : Store) (tid : Nat) : StatusReply × Store :=
  match findUser s tid with
  | none => (.noSuchUser, s)
  | some user =>
    ( .progress user.current_lesson lessons.length
        (mathRound (user.current_lesson * 100) lessons.length)
        user.last_lesson_date,
      s )

/-- Two concurrent activate attempts on the same store, interleaved as
check₁ · check₂ · commit₁ · commit₂: both pre-transaction `SELECT`s run
before either transaction commits.  The commits themselves serialize
(under READ COMMITTED the second `UPDATE … WHERE code = $2` waits for
the first commit, re-evaluates only the `code = $2` predicate — still
true — and proceeds), so a handler that passed its check always reaches
its success reply. -/
def interleavedActivatePair (s : Store) (tid1 tid2 : Nat)
    (text1 text2 : String) (now : Nat) (todayD : String) :
    (ActivateReply × ActivateReply) × Store :=
  match checkPhase s text1, checkPhase s text2 with
  | .deny r1, .deny r2 => ((r1, r2), s)
  | .deny r1, .proceed c2 =>
    ((r1, .activated), commitPhase s tid2 c2 now todayD)
  | .proceed c1, .deny r2 =>
    ((.activated, r2), commitPhase s tid1 c1 now todayD)
  | .proceed c1, .proceed c2 =>
    ((.activated, .activated),
     commitPhase (commitPhase s tid1 c1 now todayD) tid2 c2 now todayD)

/-! ### Helper lemmas about row lookup under the handlers' updates -/

/-- Lookup `find?` commutes with a `map` whose function preserves the
predicate. -/
theorem find?_map_presKey (p : UserRec → Bool) (f : UserRec → UserRec)
    (hpres : ∀ u, p (f u) = p u) :
    ∀ l : List UserRec, (l.map f).find? p = (l.find? p).map f := by
  intro l
  induction l with
  | nil => rfl
  | cons u l ih =>
    cases h : p u with
    | true =>
      rw [List.map_cons, List.find?_cons_of_pos _ ((hpres u).trans h),
        List.find?_cons_of_pos _ h, Option.map_some']
    | false =>
      rw [List.map_cons, List.find?_cons_of_neg _ (by simp [hpres, h]),
        List.find?_cons_of_neg _ (by simp [h]), ih]

/-- A guarded per-row patch that preserves `telegram_id` commutes with
row lookup. -/
theorem find?_guard_patch (l : List UserRec) (gid tid : Nat)
    (patch : UserRec → UserRec)
    (hpres : ∀ u, (patch u).telegram_id = u.telegram_id) :
    (l.map fun u => if u.telegram_id == gid then patch u else u).find?
        (fun u => u.telegram_id == tid)
      = (l.find? (fun u => u.telegram_id == tid)).map
          fun u => if u.telegram_id == gid then patch u else u :=
  find?_map_presKey _ _
    (fun u => by cases h : u.telegram_id == gid <;> simp [h, hpres]) l

/-- A found user row carries the queried `telegram_id`. -/
theorem findUser_found_id (s : Store) (tid : Nat) (u : UserRec)
    (hu : findUser s tid = some u) : u.telegram_id = tid := by
  unfold findUser at hu
  simpa using List.find?_some hu

/-- Lookup `find?` is stable under appending rows when it already finds
one. -/
theorem find?_append_of_some (l l' : List UserRec) (p : UserRec → Bool)
    (a : UserRec) (h : l.find? p = some a) : (l ++ l').find? p = some a := by
  induction l with
  | nil => simp [List.find?] at h
  | cons u l ih =>
    cases hp : p u with
    | true =>
      rw [List.find?_cons_of_pos _ hp] at h
      rw [List.cons_append, List.find?_cons_of_pos _ hp]
      exact h
    | false =>
      rw [List.find?_cons_of_neg _ (by simp [hp])] at h
      rw [List.cons_append, List.find?_cons_of_neg _ (by simp [hp])]
      exact ih h

/-- Lookup after `setLesson`: the targeted row is patched, others are
untouched. -/
theorem findUser_setLesson (s : Store) (gid tid n : Nat) (d : String) :
    findUser (setLesson s gid n d) tid
      = (findUser s tid).map fun u =>
          if u.telegram_id == gid then
            { u with current_lesson := n, last_lesson_date := some d }
          else u := by
  unfold findUser setLesson
  exact find?_guard_patch s.users gid tid _ (fun u => rfl)

/-- Lookup of the row `setLesson` targets. -/
theorem findUser_setLesson_self (s : Store) (tid n : Nat) (d : String)
    (u : UserRec) (hu : findUser s tid = some u) :
    findUser (setLesson s tid n d) tid
      = some { u with current_lesson := n, last_lesson_date := some d } := by
  rw [findUser_setLesson, hu, Option.map_some']
  simp [findUser_found_id s tid u hu]

/-- Mapping an idempotent row patch twice equals mapping it once. -/
theorem map_idem (f : UserRec → UserRec) (hf : ∀ u, f (f u) = f u) :
    ∀ l : List UserRec, (l.map f).map f = l.map f := by
  intro l
  induction l with
  | nil => rfl
  | cons u l ih => simp only [List.map_cons, ih, hf]

/-- The update `setLesson` is idempotent. -/
theorem setLesson_idem (s : Store) (tid n : Nat) (d : String) :
    setLesson (setLesson s tid n d) tid n d = setLesson s tid n d := by
  unfold setLesson
  refine congrArg (fun l => Store.mk l s.codes) ?_
  refine map_idem _ (fun u => ?_) s.users
  cases h : u.telegram_id == tid <;> simp [h]

/-- Unfolding the activate handler on a failed check. -/
theorem activateRun_deny (b : Bool) (s : Store) (tid : Nat)
    (text : String) (now : Nat) (d : String) (r : ActivateReply)
    (h : checkPhase s text = .deny r) :
    activateRun b s tid text now d = (r, s) := by
  unfold activateRun
  rw [h]

/-- Unfolding the activate handler on a passed check (fault-free run). -/
theorem activateRun_proceed (s : Store) (tid : Nat) (text : String)
    (now : Nat) (d : String) (c : String)
    (h : checkPhase s text = .proceed c) :
    activateRun false s tid text now d
      = (.activated, commitPhase s tid c now d) := by
  unfold activateRun
  rw [h]
  rfl

/-- The store after the activate handler: unchanged, or the committed
transaction for some code. -/
theorem activateCmd_state (s : Store) (tid : Nat) (text : String)
    (now : Nat) (d : String) :
    (activateCmd s tid text now d).2 = s ∨
    ∃ c, (activateCmd s tid text now d).2 = commitPhase s tid c now d := by
  unfold activateCmd
  cases h : checkPhase s text with
  | deny r => left; rw [activateRun_deny false s tid text now d r h]
  | proceed c => right; exact ⟨c, by rw [activateRun_proceed s tid text now d c h]⟩

/-- Row lookup through the committed activate transaction: a
pre-existing row is unchanged or merely gains the access flag. -/
theorem findUser_commitPhase (s : Store) (gid tid : Nat) (c : String)
    (now : Nat) (d : String) (u : UserRec) (hu : findUser s tid = some u) :
    findUser (commitPhase s gid c now d) tid = some u ∨
    findUser (commitPhase s gid c now d) tid
      = some { u with has_access := true } := by
  unfold findUser at hu ⊢
  show List.find? (fun v => v.telegram_id == tid) (upsertUser s.users gid d)
        = some u ∨
      List.find? (fun v => v.telegram_id == tid) (upsertUser s.users gid d)
        = some { u with has_access := true }
  unfold upsertUser
  split
  · rw [find?_guard_patch s.users gid tid
      (fun v => { v with has_access := true }) (fun v => rfl), hu,
      Option.map_some']
    cases hg : u.telegram_id == gid with
    | true => right; simp [hg]
    | false => left; simp [hg]
  · left
    exact find?_append_of_some _ _ _ u hu

/-- The store after `bot.start`: unchanged or the lesson-1 reset of the
caller's row. -/
theorem startCmd_state (s : Store) (tid : Nat) (d : String) :
    (startCmd s tid d).2 = s ∨ (startCmd s tid d).2 = setLesson s tid 1 d := by
  unfold startCmd
  cases hc : findUser s tid with
  | none => left; rfl
  | some cu =>
    cases hacc : cu.has_access with
    | true => right; simp [hacc]
    | false => left; simp [hacc]

/-- The store after the `Продолжить ▶️` handler: unchanged, or the
caller's row rewritten to a lesson index at or above its current one. -/
theorem continueBtn_state (s : Store) (tid : Nat) (d : String) :
    (continueBtn s tid d).2 = s ∨
    ∃ cu n, findUser s tid = some cu ∧ cu.current_lesson ≤ n ∧
      (continueBtn s tid d).2 = setLesson s tid n d := by
  have hlen : lessons.length = 10 := rfl
  unfold continueBtn
  cases hc : findUser s tid with
  | none => left; rfl
  | some cu =>
    cases hacc : cu.has_access with
    | false => left; simp [hacc]
    | true =>
      by_cases h1 : cu.current_lesson > lessons.length
      · left; simp [hacc, h1]
      · by_cases h2 : cu.current_lesson = lessons.length
        · right
          refine ⟨cu, lessons.length + 1, rfl, by omega, ?_⟩
          simp [hacc, h1, h2]
        · by_cases h3 : cu.current_lesson = 1 ∧
              (cu.last_lesson_date = none ∨ cu.last_lesson_date ≠ some d)
          · right
            refine ⟨cu, 2, rfl, ?_, ?_⟩
            · rcases h3 with ⟨h31, -⟩; omega
            · simp [hacc, h1, h2, h3, hlen]
          · by_cases h4 : cu.current_lesson < lessons.length
            · right
              refine ⟨cu, cu.current_lesson + 1, rfl, by omega, ?_⟩
              simp [hacc, h1, h2, h3, h4]
            · right
              refine ⟨cu, cu.current_lesson, rfl, le_refl _, ?_⟩
              simp [hacc, h1, h2, h3, h4]

/-! ### Claim theorems -/

/-- Claim C1: the claim demands at most one successful redemption per
code even under concurrent attempts, but the handler's check-then-act
structure (plain `SELECT`, then an unconditional `UPDATE`) violates it.
On a store holding the single unused code `PON-AAAA`, under the
interleaving check₁ · check₂ · commit₁ · commit₂ both attempts reply
`activated` and both users end up with access, whereas the serial
replay of the same two attempts refuses the second with
`codeAlreadyUsed` — exhibiting the lost race. -/
theorem c1_concurrent_double_redeem :
    (interleavedActivatePair ⟨[], [⟨"PON-AAAA", false, none, none⟩]⟩ 1 2
        "/activate PON-AAAA" "/activate PON-AAAA" 0 "2026-10-11").1
      = (ActivateReply.activated, ActivateReply.activated) ∧
    checkAccess (interleavedActivatePair ⟨[], [⟨"PON-AAAA", false, none, none⟩]⟩
        1 2 "/activate PON-AAAA" "/activate PON-AAAA" 0 "2026-10-11").2 1
      = true ∧
    checkAccess (interleavedActivatePair ⟨[], [⟨"PON-AAAA", false, none, none⟩]⟩
        1 2 "/activate PON-AAAA" "/activate PON-AAAA" 0 "2026-10-11").2 2
      = true ∧
    (activateCmd (activateCmd ⟨[], [⟨"PON-AAAA", false, none, none⟩]⟩ 1
        "/activate PON-AAAA" 0 "2026-10-11").2 2
        "/activate PON-AAAA" 0 "2026-10-11").1
      = ActivateReply.codeAlreadyUsed := by
  decide

/-- Claim C2: redeem is all-or-nothing: in every execution where the
pre-transaction checks pass (so the transaction's first statement marks
the code used) but the subsequent user upsert fails, the `ROLLBACK`
leaves the store exactly as it was — the code is not left marked used
and no partial state is committed; the caller sees the generic error
reply. -/
theorem c2_redeem_rollback_all_or_nothing (s : Store) (tid : Nat)
    (text : String) (now : Nat) (d : String) (code : String)
    (h : checkPhase s text = .proceed code) :
    (activateRun true s tid text now d).1 = .storeError ∧
    (activateRun true s tid text now d).2 = s := by
  unfold activateRun
  rw [h]
  exact ⟨rfl, rfl⟩

/-- Witness for C2 at a concrete store holding one unused code. -/
theorem c2_redeem_rollback_all_or_nothing_witness :
    (activateRun true ⟨[], [⟨"PON-AAAA", false, none, none⟩]⟩ 1
        "/activate PON-AAAA" 0 "2026-10-11").1 = .storeError ∧
    (activateRun true ⟨[], [⟨"PON-AAAA", false, none, none⟩]⟩ 1
        "/activate PON-AAAA" 0 "2026-10-11").2
      = ⟨[], [⟨"PON-AAAA", false, none, none⟩]⟩ :=
  c2_redeem_rollback_all_or_nothing ⟨[], [⟨"PON-AAAA", false, none, none⟩]⟩
    1 "/activate PON-AAAA" 0 "2026-10-11" "PON-AAAA" (by decide)

/-- Claim C8: status is a pure read — the store after `/status` is the
store before, however often it is called — reporting `NoSuchUser` when
no row exists and otherwise `current_lesson`, `total = N` (with
`N = 10`), `percent = round(100 * current_lesson / N)` and
`last_lesson_date`. -/
theorem c8_status_pure_read (s : Store) (tid : Nat) :
    (statusCmd s tid).2 = s ∧
    (findUser s tid = none → (statusCmd s tid).1 = .noSuchUser) ∧
    (∀ u, findUser s tid = some u →
      (statusCmd s tid).1
        = .progress u.current_lesson lessons.length
            (specPercent u.current_lesson) u.last_lesson_date ∧
      lessons.length = 10) := by
  unfold statusCmd
  cases hu : findUser s tid with
  | none =>
    exact ⟨rfl, fun _ => rfl, fun u h => by simp at h⟩
  | some u =>
    refine ⟨rfl, fun h => by simp at h, fun v hv => ?_⟩
    have hv' : u = v := by simpa using hv
    subst hv'
    have hlen : lessons.length = 10 := rfl
    exact ⟨by simp [specPercent, mathRound, hlen, Nat.mul_comm], rfl⟩

/-- Witness for C8 at a concrete store: lesson 3 of 10 is 30%. -/
theorem c8_status_pure_read_witness :
    (statusCmd ⟨[⟨5, 3, some ("2026-10-10"), true⟩], []⟩ 5).1
      = .progress 3 10 30 (some ("2026-10-10")) ∧
    (statusCmd ⟨[⟨5, 3, some ("2026-10-10"), true⟩], []⟩ 5).2
      = ⟨[⟨5, 3, some ("2026-10-10"), true⟩], []⟩ := by
  have h := c8_status_pure_read ⟨[⟨5, 3, some ("2026-10-10"), true⟩], []⟩ 5
  exact ⟨(h.2.2 ⟨5, 3, some ("2026-10-10"), true⟩ (by decide)).1, h.1⟩

/-- Claim C10: status is not gated by `has_access`: a user whose row
exists with `has_access = false` still gets the full progress report
(and the store is untouched), while start and advance refuse the same
user with the access-denied reply; `NoSuchUser` (no row) is status's
only failure. -/
theorem c10_status_not_gated (s : Store) (tid : Nat) (d : String)
    (u : UserRec) (hu : findUser s tid = some u)
    (hna : u.has_access = false) :
    (statusCmd s tid).1
      = .progress u.current_lesson lessons.length
          (mathRound (u.current_lesson * 100) lessons.length)
          u.last_lesson_date ∧
    (statusCmd s tid).2 = s ∧
    (startCmd s tid d).1 = .accessDenied ∧
    (continueBtn s tid d).1 = .accessDenied ∧
    (∀ s' t', findUser s' t' = none → (statusCmd s' t').1 = .noSuchUser) := by
  refine ⟨?_, ?_, ?_, ?_, ?_⟩
  · unfold statusCmd; rw [hu]
  · unfold statusCmd; rw [hu]
  · unfold startCmd; rw [hu]; simp [hna]
  · unfold continueBtn; rw [hu]; simp [hna]
  · intro s' t' h; unfold statusCmd; rw [h]

/-- Witness for C10 at a concrete access-less row. -/
theorem c10_status_not_gated_witness :
    (statusCmd ⟨[⟨7, 4, none, false⟩], []⟩ 7).1
      = .progress 4 lessons.length (mathRound 400 lessons.length) none ∧
    (startCmd ⟨[⟨7, 4, none, false⟩], []⟩ 7 "2026-10-11").1 = .accessDenied ∧
    (continueBtn ⟨[⟨7, 4, none, false⟩], []⟩ 7 "2026-10-11").1
      = .accessDenied := by
  have h := c10_status_not_gated ⟨[⟨7, 4, none, false⟩], []⟩ 7 "2026-10-11"
    ⟨7, 4, none, false⟩ (by decide) rfl
  exact ⟨h.1, h.2.2.1, h.2.2.2.1⟩

/-- Claim C4: for an existing, accessible user with
`1 ≤ current_lesson < N`, advance serves the lesson at index
2 when `current_lesson = 1` and `current_lesson + 1` otherwise, and
persists that index together with `last_lesson_date = today`; the extra
`last_lesson_date` condition on the source's `current_lesson === 1`
branch never changes this observable result. -/
theorem c4_advance_next_index (s : Store) (tid : Nat) (d : String)
    (u : UserRec) (hu : findUser s tid = some u)
    (ha : u.has_access = true) (h1 : 1 ≤ u.current_lesson)
    (hN : u.current_lesson < lessons.length) :
    (continueBtn s tid d).1
      = .lessonSent (lessons.get?
          ((if u.current_lesson = 1 then 2 else u.current_lesson + 1) - 1)) ∧
    findUser (continueBtn s tid d).2 tid
      = some { u with
          current_lesson :=
            if u.current_lesson = 1 then 2 else u.current_lesson + 1,
          last_lesson_date := some d } := by
  have hgt : ¬ u.current_lesson > lessons.length := by omega
  have hne : ¬ u.current_lesson = lessons.length := by omega
  have hkey : continueBtn s tid d
      = (.lessonSent (lessons.get?
            ((if u.current_lesson = 1 then 2 else u.current_lesson + 1) - 1)),
         setLesson s tid
           (if u.current_lesson = 1 then 2 else u.current_lesson + 1) d) := by
    have hlen : lessons.length = 10 := rfl
    have hgt10 : ¬ u.current_lesson > 10 := by omega
    have hne10 : ¬ u.current_lesson = 10 := by omega
    have hN10 : u.current_lesson < 10 := by omega
    unfold continueBtn
    rw [hu]
    by_cases hc : u.current_lesson = 1
    · by_cases hd : u.last_lesson_date = none ∨ u.last_lesson_date ≠ some d
      · simp [ha, hgt10, hne10, hc, hd, hlen]
      · simp [ha, hgt10, hne10, hc, hd, hN10, hlen]
    · simp [ha, hgt10, hne10, hc, hN10, hlen]
  rw [hkey]
  exact ⟨rfl, findUser_setLesson_self s tid _ d u hu⟩

/-- Witness for C4: a user at lesson 3 is served lesson 4 and the row
advances to 4 with today's date. -/
theorem c4_advance_next_index_witness :
    (continueBtn ⟨[⟨5, 3, some ("2026-10-10"), true⟩], []⟩ 5 "2026-10-11").1
      = .lessonSent (lessons.get? 3) ∧
    findUser (continueBtn ⟨[⟨5, 3, some ("2026-10-10"), true⟩], []⟩ 5
        "2026-10-11").2 5
      = some ⟨5, 4, some ("2026-10-11"), true⟩ := by
  exact c4_advance_next_index ⟨[⟨5, 3, some ("2026-10-10"), true⟩], []⟩ 5
    "2026-10-11" ⟨5, 3, some ("2026-10-10"), true⟩ (by decide) rfl
    (by decide) (by decide)

/-- Claim C5: for an accessible user, advance at `current_lesson = N`
persists `current_lesson = N + 1` and reports course completion in the
same call, while advance at `current_lesson > N` reports completion and
leaves the store entirely unchanged (idempotent past completion). -/
theorem c5_advance_completion (s : Store) (tid : Nat) (d : String)
    (u : UserRec) (hu : findUser s tid = some u)
    (ha : u.has_access = true) :
    (u.current_lesson = lessons.length →
      (continueBtn s tid d).1 = .courseComplete ∧
      findUser (continueBtn s tid d).2 tid
        = some { u with current_lesson := lessons.length + 1,
                        last_lesson_date := some d }) ∧
    (u.current_lesson > lessons.length →
      continueBtn s tid d = (.courseComplete, s)) := by
  constructor
  · intro hc
    have hgt : ¬ u.current_lesson > lessons.length := by omega
    have hkey : continueBtn s tid d
        = (.courseComplete, setLesson s tid (lessons.length + 1) d) := by
      unfold continueBtn
      rw [hu]
      simp [ha, hgt, hc]
    rw [hkey]
    exact ⟨rfl, findUser_setLesson_self s tid _ d u hu⟩
  · intro hc
    unfold continueBtn
    rw [hu]
    simp [ha, hc]

/-- Witness for C5 at `current_lesson = 10` and at `current_lesson = 11`. -/
theorem c5_advance_completion_witness :
    ((continueBtn ⟨[⟨5, 10, some ("2026-10-10"), true⟩], []⟩ 5
        "2026-10-11").1 = .courseComplete ∧
      findUser (continueBtn ⟨[⟨5, 10, some ("2026-10-10"), true⟩], []⟩ 5
          "2026-10-11").2 5
        = some ⟨5, 11, some ("2026-10-11"), true⟩) ∧
    continueBtn ⟨[⟨5, 11, some ("2026-10-10"), true⟩], []⟩ 5 "2026-10-11"
      = (.courseComplete, ⟨[⟨5, 11, some ("2026-10-10"), true⟩], []⟩) := by
  constructor
  · exact (c5_advance_completion ⟨[⟨5, 10, some ("2026-10-10"), true⟩], []⟩ 5
      "2026-10-11" ⟨5, 10, some ("2026-10-10"), true⟩ (by decide) rfl).1 rfl
  · exact (c5_advance_completion ⟨[⟨5, 11, some ("2026-10-10"), true⟩], []⟩ 5
      "2026-10-11" ⟨5, 11, some ("2026-10-10"), true⟩ (by decide) rfl).2
      (by decide)

/-- Claim C6: for an identity with access, start unconditionally resets
`current_lesson = 1` and `last_lesson_date = today`, returns lesson #1
(the first record of the static table), and is idempotent: repeating it
yields the same reply and the same store. -/
theorem c6_start_reset_idempotent (s : Store) (tid : Nat) (d : String)
    (h : checkAccess s tid = true) :
    (startCmd s tid d).1 = .lessonSent (lessons.get? 0) ∧
    lessons.get? 0 = some ⟨"ДЕНЬ 1 - Введение в профессию"⟩ ∧
    (∀ u', findUser (startCmd s tid d).2 tid = some u' →
      u'.current_lesson = 1 ∧ u'.last_lesson_date = some d) ∧
    startCmd (startCmd s tid d).2 tid d = startCmd s tid d := by
  unfold checkAccess at h
  cases hu : findUser s tid with
  | none => rw [hu] at h; exact absurd h (by simp)
  | some u =>
    rw [hu] at h
    have h' : u.has_access = true := h
    have hkey : startCmd s tid d
        = (.lessonSent (lessons.get? 0), setLesson s tid 1 d) := by
      unfold startCmd
      rw [hu]
      simp [h']
    have hfind := findUser_setLesson_self s tid 1 d u hu
    refine ⟨by rw [hkey], rfl, ?_, ?_⟩
    · intro u' hu'
      rw [hkey] at hu'
      have : findUser (setLesson s tid 1 d) tid = some u' := hu'
      rw [hfind] at this
      cases this
      exact ⟨rfl, rfl⟩
    · have hkey2 : startCmd (setLesson s tid 1 d) tid d
          = (.lessonSent (lessons.get? 0),
             setLesson (setLesson s tid 1 d) tid 1 d) := by
        unfold startCmd
        rw [hfind]
        simp [h']
      rw [hkey, hkey2, setLesson_idem]

/-- Witness for C6: a user deep in the course is reset to lesson 1. -/
theorem c6_start_reset_idempotent_witness :
    (startCmd ⟨[⟨5, 7, some ("2026-01-01"), true⟩], []⟩ 5 "2026-10-11").1
      = .lessonSent (lessons.get? 0) ∧
    startCmd (startCmd ⟨[⟨5, 7, some ("2026-01-01"), true⟩], []⟩ 5
        "2026-10-11").2 5 "2026-10-11"
      = startCmd ⟨[⟨5, 7, some ("2026-01-01"), true⟩], []⟩ 5 "2026-10-11" := by
  have h := c6_start_reset_idempotent ⟨[⟨5, 7, some ("2026-01-01"), true⟩], []⟩
    5 "2026-10-11" (by decide)
  exact ⟨h.1, h.2.2.2⟩

/-- Claim C7: the one-lesson-per-day cadence rule is inert: for an
existing, accessible user, even in exactly the situation the
commented-out check would block (`last_lesson_date = today`), advance
never refuses — it reports course completion or serves a lesson, and
below `N` it still advances `current_lesson`, allowing unlimited
same-day advancement. -/
theorem c7_cadence_inert (s : Store) (tid : Nat) (d : String)
    (u : UserRec) (hu : findUser s tid = some u)
    (ha : u.has_access = true) (hcad : cadenceWouldBlock u d = true) :
    ((continueBtn s tid d).1 = .courseComplete ∨
      ∃ l, (continueBtn s tid d).1 = ContinueReply.lessonSent l) ∧
    (u.current_lesson < lessons.length →
      findUser (continueBtn s tid d).2 tid
        = some { u with current_lesson := u.current_lesson + 1,
                        last_lesson_date := some d }) := by
  have hdate : u.last_lesson_date = some d := by
    unfold cadenceWouldBlock at hcad
    cases hld : u.last_lesson_date with
    | none => rw [hld] at hcad; exact absurd hcad (by simp)
    | some d' =>
      rw [hld] at hcad
      simp only [beq_iff_eq] at hcad
      rw [hcad]
  rcases lt_trichotomy u.current_lesson lessons.length with hlt | heq | hgt
  · have hgt' : ¬ u.current_lesson > lessons.length := by omega
    have hne : ¬ u.current_lesson = lessons.length := by omega
    have hcond : ¬ (u.current_lesson = 1 ∧
        (u.last_lesson_date = none ∨ u.last_lesson_date ≠ some d)) := by
      rintro ⟨-, h2 | h2⟩ <;> simp [hdate] at h2
    have hkey : continueBtn s tid d
        = (.lessonSent (lessons.get? (u.current_lesson + 1 - 1)),
           setLesson s tid (u.current_lesson + 1) d) := by
      unfold continueBtn
      rw [hu]
      simp [ha, hgt', hne, hcond, hlt]
    constructor
    · right; exact ⟨_, by rw [hkey]⟩
    · intro _
      rw [hkey]
      exact findUser_setLesson_self s tid _ d u hu
  · constructor
    · left
      unfold continueBtn
      rw [hu]
      simp [ha, heq, (by omega : ¬ u.current_lesson > lessons.length)]
    · intro hlt; omega
  · constructor
    · left
      unfold continueBtn
      rw [hu]
      simp [ha, hgt]
    · intro hlt; omega

/-- Witness for C7: a user who already advanced today (lesson 3, date =
today) is still served the next lesson and advanced to 4. -/
theorem c7_cadence_inert_witness :
    ((continueBtn ⟨[⟨5, 3, some ("2026-10-11"), true⟩], []⟩ 5
        "2026-10-11").1 = .courseComplete ∨
      ∃ l, (continueBtn ⟨[⟨5, 3, some ("2026-10-11"), true⟩], []⟩ 5
          "2026-10-11").1 = ContinueReply.lessonSent l) ∧
    findUser (continueBtn ⟨[⟨5, 3, some ("2026-10-11"), true⟩], []⟩ 5
        "2026-10-11").2 5
      = some ⟨5, 4, some ("2026-10-11"), true⟩ := by
  have h := c7_cadence_inert ⟨[⟨5, 3, some ("2026-10-11"), true⟩], []⟩ 5
    "2026-10-11" ⟨5, 3, some ("2026-10-11"), true⟩ (by decide) rfl (by decide)
  exact ⟨h.1, h.2 (by decide)⟩

/-- Claim C3: across all four operations, an existing user row's
`current_lesson` never decreases — except that start may reset it to 1 —
and `has_access` never transitions away from true. -/
theorem c3_progression_invariants (s : Store) (tid callerTid : Nat)
    (text : String) (now : Nat) (d : String) (u : UserRec)
    (hu : findUser s tid = some u) :
    (∀ u', findUser (activateCmd s callerTid text now d).2 tid = some u' →
        u.current_lesson ≤ u'.current_lesson ∧
        (u.has_access = true → u'.has_access = true)) ∧
    (∀ u', findUser (startCmd s callerTid d).2 tid = some u' →
        (u.current_lesson ≤ u'.current_lesson ∨ u'.current_lesson = 1) ∧
        (u.has_access = true → u'.has_access = true)) ∧
    (∀ u', findUser (continueBtn s callerTid d).2 tid = some u' →
        u.current_lesson ≤ u'.current_lesson ∧
        (u.has_access = true → u'.has_access = true)) ∧
    (statusCmd s callerTid).2 = s := by
  refine ⟨?_, ?_, ?_, ?_⟩
  · intro u' hu'
    rcases activateCmd_state s callerTid text now d with he | ⟨c, he⟩
    · rw [he, hu] at hu'
      cases hu'
      exact ⟨le_refl _, fun hh => hh⟩
    · rw [he] at hu'
      rcases findUser_commitPhase s callerTid tid c now d u hu with hf | hf <;>
        rw [hf] at hu' <;> cases hu'
      · exact ⟨le_refl _, fun hh => hh⟩
      · exact ⟨le_refl _, fun _ => rfl⟩
  · intro u' hu'
    rcases startCmd_state s callerTid d with he | he
    · rw [he, hu] at hu'
      cases hu'
      exact ⟨Or.inl (le_refl _), fun hh => hh⟩
    · rw [he, findUser_setLesson, hu, Option.map_some'] at hu'
      cases hg : u.telegram_id == callerTid <;> rw [hg] at hu' <;>
        simp only [if_true, if_false, Bool.false_eq_true, if_neg] at hu' <;>
        cases hu'
      · exact ⟨Or.inl (le_refl _), fun hh => hh⟩
      · exact ⟨Or.inr rfl, fun hh => hh⟩
  · intro u' hu'
    rcases continueBtn_state s callerTid d with he | ⟨cu, n, hc, hle, he⟩
    · rw [he, hu] at hu'
      cases hu'
      exact ⟨le_refl _, fun hh => hh⟩
    · rw [he, findUser_setLesson, hu, Option.map_some'] at hu'
      cases hg : u.telegram_id == callerTid <;> rw [hg] at hu' <;>
        simp only [if_true, if_false, Bool.false_eq_true, if_neg] at hu' <;>
        cases hu'
      · exact ⟨le_refl _, fun hh => hh⟩
      · have htid : u.telegram_id = tid := findUser_found_id s tid u hu
        have hcall : tid = callerTid := by
          have := of_decide_eq_true (by simpa [BEq.beq] using hg)
          omega
        have hcu : cu = u := by
          rw [← hcall] at hc
          rw [hu] at hc
          cases hc
          rfl
        subst hcu
        exact ⟨hle, fun hh => hh⟩
  · unfold statusCmd
    cases hc : findUser s callerTid <;> rfl

/-- Witness for C3: a redeem by user 9 leaves user 5's row (lesson 3,
access granted) intact. -/
theorem c3_progression_invariants_witness :
    (3 : Nat) ≤ 3 ∧ (true = true → true = true) := by
  have h := (c3_progression_invariants
    ⟨[⟨5, 3, some ("2026-10-10"), true⟩], [⟨"PON-AAAA", false, none, none⟩]⟩
    5 9 "/activate PON-AAAA" 0 "2026-10-11"
    ⟨5, 3, some ("2026-10-10"), true⟩ (by decide)).1
    ⟨5, 3, some ("2026-10-10"), true⟩ (by decide)
  exact h

/-- Claim C9: redeem normalizes the raw code (uppercase, trim) before
lookup; it fails with the code-missing reply when no token was
supplied, code-not-found when no record matches, and code-already-used
when the matched record is used — in each case leaving the store
unchanged; and the concrete scenario holds: with `"PON-ABCD1234"`
unredeemed, `/activate pon-abcd1234` from user 42 succeeds and a
subsequent `/status` reports lesson 1 of 10, 10%. -/
theorem c9_redeem_normalization (s : Store) (tid : Nat) (text : String)
    (now : Nat) (d : String) :
    (∀ cs, (splitSpace text.data).get? 1 = some cs →
        codeToken text = some (normalizeCode ⟨cs⟩)) ∧
    (codeToken text = none →
        activateCmd s tid text now d = (.codeMissing, s)) ∧
    (∀ raw, codeToken text = some raw → raw = "" →
        activateCmd s tid text now d = (.codeMissing, s)) ∧
    (∀ raw, codeToken text = some raw → raw ≠ "" → findCode s raw = none →
        activateCmd s tid text now d = (.codeNotFound, s)) ∧
    (∀ raw a, codeToken text = some raw → raw ≠ "" →
        findCode s raw = some a → a.is_used = true →
        activateCmd s tid text now d = (.codeAlreadyUsed, s)) ∧
    codeToken ("/activate pon-abcd1234") = some ("PON-ABCD1234") ∧
    (activateCmd ⟨[], [⟨"PON-ABCD1234", false, none, none⟩]⟩ 42
        "/activate pon-abcd1234" 0 "2026-10-11").1 = .activated ∧
    (statusCmd (activateCmd ⟨[], [⟨"PON-ABCD1234", false, none, none⟩]⟩ 42
        "/activate pon-abcd1234" 0 "2026-10-11").2 42).1
      = .progress 1 10 10 (some ("2026-10-11")) := by
  refine ⟨?_, ?_, ?_, ?_, ?_, by decide, by decide, by decide⟩
  · intro cs h
    unfold codeToken
    rw [h]
    rfl
  · intro h
    unfold activateCmd
    exact activateRun_deny false s tid text now d _ (by unfold checkPhase; rw [h])
  · intro raw h hraw
    unfold activateCmd
    exact activateRun_deny false s tid text now d _
      (by unfold checkPhase; rw [h]; simp [hraw])
  · intro raw h hraw hfind
    unfold activateCmd
    exact activateRun_deny false s tid text now d _
      (by unfold checkPhase; rw [h]; simp [hraw, hfind])
  · intro raw a h hraw hfind hused
    unfold activateCmd
    exact activateRun_deny false s tid text now d _
      (by unfold checkPhase; rw [h]; simp [hraw, hfind, hused])

/-- Witness for C9: `/activate` with no token is refused as missing. -/
theorem c9_redeem_normalization_witness :
    activateCmd ⟨[], []⟩ 1 "/activate" 0 "2026-10-11"
      = (.codeMissing, ⟨[], []⟩) :=
  (c9_redeem_normalization ⟨[], []⟩ 1 "/activate" 0 "2026-10-11").2.1
    (by decide)

end PonEstateSchool
